import Mathlib

/-!
Verification development for the Wordless repository.

The Python sources (`main.py`, `generate_variations.py`,
`animate_depth_transition.py`) are shallowly embedded below.  Machine floats
are modelled as exact rationals, Python `int()` truncation as `pyInt`, the
global `random` module as an explicit stream of values in `[0,1)` threaded
through every function that consumes randomness, and the PIL imaging calls
(text drawing, blur, blend, palette conversion) as free constructors of a
`Canvas` type, since the claims under study only depend on which operations
are applied in which order, never on concrete pixel output of the font
rasteriser.  Fallible Python operations (the `IndexError` that
`random.choice` raises on an empty sequence) are modelled with `Except`.
-/

namespace Wordless

/-- Python `int()` applied to a float: truncation toward zero. -/
def pyInt (q : ℚ) : ℤ := if 0 ≤ q then ⌊q⌋ else ⌈q⌉

/-- Errors that the embedded code can raise (`random.choice` on an empty
sequence raises `IndexError`). -/
inductive PyErr where
  | indexError
deriving DecidableEq

/-- The global `random` generator: a stream of values (intended in `[0,1)`)
together with the position of the next value to be consumed. -/
structure Rng where
  stream : ℕ → ℚ
  pos : ℕ

/-- Draw one value from the stream (`random.random()`). -/
def Rng.next (r : Rng) : ℚ × Rng := (r.stream r.pos, ⟨r.stream, r.pos + 1⟩)

/-- Python `random.uniform(a, b)`, which CPython computes as
`a + (b - a) * random()`. -/
def Rng.uniform (r : Rng) (a b : ℚ) : ℚ × Rng :=
  let (u, r') := r.next
  (a + (b - a) * u, r')

/-- A grayscale image: dimensions plus a pixel intensity for each coordinate
(0 = black .. 255 = white).  Only in-bounds coordinates are ever consulted by
the embedded code. -/
structure GrayImage where
  width : ℕ
  height : ℕ
  pixel : ℕ → ℕ → ℕ

/-- The pixel list of `img_gray.crop((x, y, x2, y2)).getdata()`: row-major
enumeration of the rectangle `[x, x2) × [y, y2)`. -/
def cropData (img : GrayImage) (x y x2 y2 : ℕ) : List ℕ :=
  (List.range (y2 - y)).flatMap fun j =>
    (List.range (x2 - x)).map fun i => img.pixel (x + i) (y + j)

/-- Embedding of `main.sample_region_luminance`: average luminance in a
`step × step` block with top-left `(x, y)`, clamped to image bounds; `255.0`
when the clipped region holds no pixels. -/
def sample_region_luminance (img : GrayImage) (x y step : ℕ) : ℚ :=
  let x2 := min (x + step) img.width
  let y2 := min (y + step) img.height
  let pixels := cropData img x y x2 y2
  if pixels = [] then 255 else (pixels.sum : ℚ) / pixels.length

/-- Embedding of `main.choose_word`, i.e. `random.choice(words)`: uniform
choice modelled as indexing by `int(u * len)`; on an empty sequence CPython
raises `IndexError` without consuming randomness. -/
def choose_word (words : List String) (r : Rng) : Except PyErr (String × Rng) :=
  match words with
  | [] => .error .indexError
  | w :: _ =>
    let (u, r') := r.next
    .ok (words.getD (pyInt (u * words.length)).toNat w, r')

/-- Embedding of `main.luminance_to_alpha_and_density`. -/
def luminance_to_alpha_and_density (lum : ℚ) (base_alpha alpha_boost_dark : ℤ)
    (density_scale : ℚ) : ℤ × ℚ :=
  let t := lum / 255
  let alpha := pyInt ((base_alpha : ℚ) + (1 - t) * (alpha_boost_dark : ℚ))
  let alphaClamped := max 0 (min 255 alpha)
  let density := (1 - t) * density_scale
  (alphaClamped, density)

/-- Result of `font.getbbox(word)`: the 4-tuple `(x0, y0, x1, y1)`. -/
structure BBox where
  x0 : ℤ
  y0 : ℤ
  x1 : ℤ
  y1 : ℤ

/-- The font backend (external collaborator): bounding box of a word rendered
at a given font size. -/
structure Env where
  getbbox : ℤ → String → BBox

/-- One planned glyph of the animation path, as produced by
`generate_layer_targets` (field `font` of the Python dict is represented by
the resolved font size at which the font object was loaded). -/
structure Target where
  word : String
  fontSize : ℤ
  width : ℤ
  height : ℤ
  targetPos : ℚ × ℚ
  alpha : ℤ
  color : ℤ × ℤ × ℤ
deriving DecidableEq

/-- A planned glyph after `accumulate_layers_animation` assigned it a random
off-screen start point (`t["start_pos"]`). -/
structure Glyph extends Target where
  startPos : ℚ × ℚ
deriving DecidableEq

/-- One layer configuration dict.  `random_jitter` may be present in a
layer's dict (the static rendering path reads it) but the animation planner
never consults it; `allow_rotation` likewise. -/
structure LayerConfig where
  font_size : ℤ
  step : ℕ
  base_alpha : ℤ
  alpha_boost_dark : ℤ
  density_scale : ℚ
  color : ℤ × ℤ × ℤ
  random_jitter : ℚ := 2/5
  allow_rotation : Bool := false

/-- The `subtle_soft` preset of `generate_variations.get_style_presets`. -/
def subtle_soft : List LayerConfig :=
  [{ font_size := 52, step := 56, base_alpha := 20, alpha_boost_dark := 130,
     density_scale := 1/2, color := (0, 0, 0) },
   { font_size := 30, step := 32, base_alpha := 30, alpha_boost_dark := 140,
     density_scale := 9/10, color := (0, 0, 0) },
   { font_size := 18, step := 18, base_alpha := 40, alpha_boost_dark := 150,
     density_scale := 12/10, color := (0, 0, 0) }]

/-- The `graphic_bold` preset of `generate_variations.get_style_presets`. -/
def graphic_bold : List LayerConfig :=
  [{ font_size := 64, step := 60, base_alpha := 40, alpha_boost_dark := 200,
     density_scale := 8/10, color := (0, 0, 0) },
   { font_size := 32, step := 30, base_alpha := 60, alpha_boost_dark := 190,
     density_scale := 16/10, color := (0, 0, 0) },
   { font_size := 16, step := 14, base_alpha := 70, alpha_boost_dark := 190,
     density_scale := 18/10, color := (0, 0, 0) }]

/-- The layer list the animation runs over:
`list(subtle_layers) + list(bold_layers)`. -/
def combined_layers : List LayerConfig := subtle_soft ++ graphic_bold

/-- Resolution of the rendered font size in `generate_layer_targets` and
`draw_layer`: `fsize = max(6, int(font_size * size_variation))`. -/
def resolveFsize (font_size : ℤ) (size_variation : ℚ) : ℤ :=
  max 6 (pyInt ((font_size : ℚ) * size_variation))

/-- Python `range(0, n, step)` for `step ≥ 1` (the degenerate `step = 0`,
which Python rejects with `ValueError`, is mapped to the empty list). -/
def pyRange (n step : ℕ) : List ℕ :=
  if step = 0 then [] else (List.range ((n + step - 1) / step)).map fun i => i * step

/-- The grid cells visited by the planner's nested loops, row-major:
`for y in range(0, h, step): for x in range(0, w, step)`. -/
def layerCells (img : GrayImage) (step : ℕ) : List (ℕ × ℕ) :=
  (pyRange img.height step).flatMap fun y =>
    (pyRange img.width step).map fun x => (x, y)

/-- Body of the planner's inner loop in
`animate_depth_transition.generate_layer_targets` for one grid cell:
sample luminance, stochastically thin, choose a word, jitter the cell center
by the hard-coded fraction `0.4` of `step`, sample a size variation, measure
the glyph, and emit a target (or `none` when the cell is skipped). -/
def processCell (env : Env) (img : GrayImage) (step : ℕ)
    (font_size base_alpha alpha_boost_dark : ℤ) (density_scale : ℚ)
    (color : ℤ × ℤ × ℤ) (words : List String) (x y : ℕ) (r : Rng) :
    Except PyErr (Option Target × Rng) :=
  let lum := sample_region_luminance img x y step
  let ad := luminance_to_alpha_and_density lum base_alpha alpha_boost_dark density_scale
  let (u1, r1) := r.next
  if u1 > ad.2 then .ok (none, r1)
  else
    match choose_word words r1 with
    | .error e => .error e
    | .ok (word, r2) =>
      let (u2, r3) := r2.next
      let jitterX := (u2 - 1/2) * 2 * (step : ℚ) * (4/10)
      let (u3, r4) := r3.next
      let jitterY := (u3 - 1/2) * 2 * (step : ℚ) * (4/10)
      let px := (x : ℚ) + (step : ℚ) / 2 + jitterX
      let py := (y : ℚ) + (step : ℚ) / 2 + jitterY
      let (sv, r5) := r4.uniform (9/10) (12/10)
      let fsize := resolveFsize font_size sv
      let bbox := env.getbbox fsize word
      let tw := bbox.x1 - bbox.x0
      let th := bbox.y1 - bbox.y0
      .ok (some { word := word, fontSize := fsize, width := tw, height := th,
                  targetPos := (px, py), alpha := ad.1, color := color }, r5)

/-- Embedding of `animate_depth_transition.generate_layer_targets`: walk the
grid row-major, run `processCell` on every cell, and collect the emitted
targets in order (the nested `for` loops are flattened into one fold over
`layerCells`). -/
def generate_layer_targets (env : Env) (img : GrayImage) (layer : LayerConfig)
    (words : List String) (density_multiplier : ℚ) (r : Rng) :
    Except PyErr (List Target × Rng) :=
  let ds := layer.density_scale * density_multiplier
  (layerCells img layer.step).foldlM
    (fun (acc : List Target × Rng) (c : ℕ × ℕ) =>
      (processCell env img layer.step layer.font_size layer.base_alpha
          layer.alpha_boost_dark ds layer.color words c.1 c.2 acc.2).map
        fun p => (acc.1 ++ p.1.toList, p.2))
    ([], r)

/-- An RGBA canvas, modelled as the trace of imaging operations applied to it.
Text drawing, Gaussian blur, cross-blending and palette conversion are
external collaborators, so they are free constructors: two canvases are the
same exactly when the same operations were applied in the same order. -/
inductive Canvas where
  | blank (w h : ℕ) (background : ℤ × ℤ × ℤ)
  | text (c : Canvas) (pos : ℤ × ℤ) (word : String) (fontSize : ℤ)
      (fill : ℤ × ℤ × ℤ × ℤ)
  | blur (c : Canvas) (radius : ℚ)
  | blend (a b : Canvas) (alpha : ℚ)
  | convertP (c : Canvas)
deriving DecidableEq

/-- Embedding of `random_offscreen_start`: pick one of the four sides
uniformly, then a point just outside the canvas on that side. -/
def random_offscreen_start (w h : ℚ) (r : Rng) : (ℚ × ℚ) × Rng :=
  let (u, r0) := r.next
  let side := (pyInt (u * 4)).toNat
  if side = 0 then
    let (a, r1) := r0.uniform (1/10) (5/10)
    let (b, r2) := r1.uniform 0 h
    ((-w * a, b), r2)
  else if side = 1 then
    let (a, r1) := r0.uniform (1/10) (5/10)
    let (b, r2) := r1.uniform 0 h
    ((w * (1 + a), b), r2)
  else if side = 2 then
    let (a, r1) := r0.uniform 0 w
    let (b, r2) := r1.uniform (1/10) (5/10)
    ((a, -h * b), r2)
  else
    let (a, r1) := r0.uniform 0 w
    let (b, r2) := r1.uniform (1/10) (5/10)
    ((a, h * (1 + b)), r2)

/-- The loop `for t in targets: t["start_pos"] = random_offscreen_start(w, h)`
of `accumulate_layers_animation`. -/
def assignStarts (w h : ℚ) (ts : List Target) (r : Rng) : List Glyph × Rng :=
  ts.foldl
    (fun (acc : List Glyph × Rng) t =>
      let (s, r') := random_offscreen_start w h acc.2
      (acc.1 ++ [{ toTarget := t, startPos := s }], r'))
    ([], r)

/-- Normalised flight progress `t_norm = (f + 1) / float(frames_per_layer)`. -/
def tNorm (f fpl : ℕ) : ℚ := ((f : ℚ) + 1) / (fpl : ℚ)

/-- The per-axis linear interpolation of the flight loop:
`cx = sx + (tx - sx) * t_norm` and likewise for `cy`. -/
def interpPos (s t : ℚ × ℚ) (tn : ℚ) : ℚ × ℚ :=
  (s.1 + (t.1 - s.1) * tn, s.2 + (t.2 - s.2) * tn)

/-- Drawing one in-flight glyph onto a frame: interpolate the center, derive
the integer top-left corner, and draw the word. -/
def drawInFlight (tn : ℚ) (c : Canvas) (g : Glyph) : Canvas :=
  let p := interpPos g.startPos g.targetPos tn
  c.text (pyInt (p.1 - (g.width : ℚ) / 2), pyInt (p.2 - (g.height : ℚ) / 2))
    g.word g.fontSize (g.color.1, g.color.2.1, g.color.2.2, g.alpha)

/-- One frame of a layer's flight: copy the settled canvas, draw every glyph
at its interpolated position, apply the decaying motion blur when its radius
exceeds `0.1`, and convert for GIF output. -/
def flightFrame (settled : Canvas) (glyphs : List Glyph) (f fpl : ℕ) : Canvas :=
  let tn := tNorm f fpl
  let c := glyphs.foldl (drawInFlight tn) settled
  let blurRadius := 12/10 * (1 - tn)
  (if blurRadius > 1/10 then c.blur blurRadius else c).convertP

/-- The flight loop of one layer, carried out on the explicit loop state
`(settled canvas, frame list)`: each iteration reads the current settled
canvas and appends one frame. -/
def flightLoop (glyphs : List Glyph) (fpl : ℕ) (st : Canvas × List Canvas) :
    Canvas × List Canvas :=
  (List.range fpl).foldl
    (fun s f => (s.1, s.2 ++ [flightFrame s.1 glyphs f fpl])) st

/-- The commit point after a layer's flight: permanently draw the layer's
glyphs at their final target positions onto the settled canvas. -/
def commitLayer (settled : Canvas) (glyphs : List Glyph) : Canvas :=
  glyphs.foldl
    (fun c g =>
      c.text (pyInt (g.targetPos.1 - (g.width : ℚ) / 2),
              pyInt (g.targetPos.2 - (g.height : ℚ) / 2))
        g.word g.fontSize (g.color.1, g.color.2.1, g.color.2.2, g.alpha))
    settled

/-- One layer of the animation after planning: flight frames, then commit. -/
def processLayer (glyphs : List Glyph) (fpl : ℕ) (st : Canvas × List Canvas) :
    Canvas × List Canvas :=
  let st' := flightLoop glyphs fpl st
  (commitLayer st'.1 glyphs, st'.2)

/-- One frame of the final fade into the original image. -/
def fadeFrame (settled original : Canvas) (i ffr : ℕ) : Canvas :=
  let a := ((i : ℚ) + 1) / (ffr : ℚ)
  let blended := Canvas.blend settled original a
  let blurRadius := max 0 (3/2 - 3/2 * a)
  (if blurRadius > 0 then blended.blur blurRadius else blended).convertP

/-- Loop state of `accumulate_layers_animation`: the settled canvas, the
frame sequence built so far, and the random generator. -/
structure AnimState where
  settled : Canvas
  frames : List Canvas
  rng : Rng

/-- Body of the per-layer loop of `accumulate_layers_animation`: plan the
layer, assign off-screen starts, run the flight, commit. -/
def animStepLayer (env : Env) (img : GrayImage) (words : List String)
    (fpl : ℕ) (st : AnimState) (layer : LayerConfig) : Except PyErr AnimState :=
  match generate_layer_targets env img layer words 1 st.rng with
  | .error e => .error e
  | .ok (targets, r) =>
    let (glyphs, r') := assignStarts (img.width : ℚ) (img.height : ℚ) targets r
    let p := processLayer glyphs fpl (st.settled, st.frames)
    .ok ⟨p.1, p.2, r'⟩

/-- Embedding of `accumulate_layers_animation`: start from a blank settled
canvas, process each layer of `combined_layers` in order, then append the
fade frames toward the original image.  The returned list is the frame
sequence handed to the GIF encoder. -/
def accumulate_layers_animation (env : Env) (img : GrayImage)
    (original : Canvas) (words : List String) (r : Rng) (fpl ffr : ℕ) :
    Except PyErr (List Canvas) :=
  let settled0 := Canvas.blank img.width img.height (255, 255, 255)
  match combined_layers.foldlM (animStepLayer env img words fpl) ⟨settled0, [], r⟩ with
  | .error e => .error e
  | .ok st =>
    .ok (st.frames ++ (List.range ffr).map fun i => fadeFrame st.settled original i ffr)

/-! ### Basic lemmas about the embedded primitives -/

theorem pyInt_mono {q r : ℚ} (h : q ≤ r) : pyInt q ≤ pyInt r := by
  unfold pyInt
  split <;> split <;> rename_i h1 h2
  · exact Int.floor_le_floor h
  · exact absurd (h1.trans h) h2
  · exact le_trans (Int.ceil_le.mpr (not_le.mp h1).le) (by positivity)
  · exact Int.ceil_le_ceil h

theorem pyInt_eq_floor {q : ℚ} (h : 0 ≤ q) : pyInt q = ⌊q⌋ := if_pos h

theorem luminance_to_alpha_and_density_alpha (lum : ℚ) (ba abd : ℤ) (ds : ℚ) :
    (luminance_to_alpha_and_density lum ba abd ds).1
      = max 0 (min 255 (pyInt ((ba : ℚ) + (1 - lum / 255) * (abd : ℚ)))) := rfl

theorem luminance_to_alpha_and_density_density (lum : ℚ) (ba abd : ℤ) (ds : ℚ) :
    (luminance_to_alpha_and_density lum ba abd ds).2 = (1 - lum / 255) * ds := rfl

/-! ### C1: the alpha mapping truncates, it does not round to nearest -/

/-- C1 counterexample: at luminance 254 with `base_alpha = 0`,
`alpha_boost_dark = 180`, the code's alpha (via Python `int()`, which
truncates) differs from the claimed `clamp(round(...), 0, 255)`:
the real value is `180/255 ≈ 0.706`, the code yields `0`, rounding to the
nearest integer yields `1`. -/
theorem alpha_round_counterexample :
    (luminance_to_alpha_and_density 254 0 180 (7/10)).1
      ≠ max 0 (min 255 (round ((0 : ℚ) + (1 - 254 / 255) * 180))) := by
  have h1 : (luminance_to_alpha_and_density 254 0 180 (7/10)).1 = 0 := by
    norm_num [luminance_to_alpha_and_density, pyInt]
  have h2 : round ((0 : ℚ) + (1 - 254 / 255) * 180) = 1 := by
    rw [round_eq]; norm_num
  rw [h1, h2]; norm_num

/-- C1 (amended): for luminance in `[0,255]` and non-negative parameters, the
alpha returned by `luminance_to_alpha_and_density` equals
`clamp(trunc(base_alpha + (1 - lum/255) * alpha_boost_dark), 0, 255)` where
`trunc` is truncation toward zero (here equal to the floor, as the argument
is non-negative); in particular the result always lies within `[0,255]`. -/
theorem alpha_trunc_clamp (lum : ℚ) (ba abd : ℤ) (ds : ℚ)
    (h0 : 0 ≤ lum) (h255 : lum ≤ 255) (hba : 0 ≤ ba) (habd : 0 ≤ abd) :
    (luminance_to_alpha_and_density lum ba abd ds).1
        = max 0 (min 255 ⌊(ba : ℚ) + (1 - lum / 255) * (abd : ℚ)⌋) ∧
      0 ≤ (luminance_to_alpha_and_density lum ba abd ds).1 ∧
      (luminance_to_alpha_and_density lum ba abd ds).1 ≤ 255 := by
  have harg : 0 ≤ (ba : ℚ) + (1 - lum / 255) * (abd : ℚ) := by
    have ht : lum / 255 ≤ 1 := by
      rw [div_le_one (by norm_num : (0:ℚ) < 255)]; exact h255
    have : 0 ≤ (1 - lum / 255) * (abd : ℚ) :=
      mul_nonneg (by linarith) (by exact_mod_cast habd)
    have : (0:ℚ) ≤ (ba : ℚ) := by exact_mod_cast hba
    linarith
  refine ⟨?_, ?_, ?_⟩
  · rw [luminance_to_alpha_and_density_alpha, pyInt_eq_floor harg]
  · rw [luminance_to_alpha_and_density_alpha]; exact le_max_left _ _
  · rw [luminance_to_alpha_and_density_alpha]
    exact max_le (by norm_num) (min_le_left _ _)

/-- C1 witness: at `lum = 0`, `base_alpha = 10`, `alpha_boost_dark = 180`
(the first static layer), the alpha is `clamp(⌊190⌋) = 190 ∈ [0,255]`. -/
theorem alpha_trunc_clamp_witness :
    (luminance_to_alpha_and_density 0 10 180 (7/10)).1
        = max 0 (min 255 ⌊(10 : ℚ) + (1 - 0 / 255) * (180 : ℚ)⌋) ∧
      0 ≤ (luminance_to_alpha_and_density 0 10 180 (7/10)).1 ∧
      (luminance_to_alpha_and_density 0 10 180 (7/10)).1 ≤ 255 :=
  alpha_trunc_clamp 0 10 180 (7/10) (by norm_num) (by norm_num)
    (by norm_num) (by norm_num)

/-! ### C5: alpha and density are antitone in luminance -/

/-- C5: for fixed non-negative parameters, the mapping is antitone in
luminance: a lower luminance never gets a lower alpha or density. -/
theorem alpha_density_antitone (l1 l2 : ℚ) (ba abd : ℤ) (ds : ℚ)
    (h0 : 0 ≤ l1) (h12 : l1 ≤ l2) (h255 : l2 ≤ 255)
    (hba : 0 ≤ ba) (habd : 0 ≤ abd) (hds : 0 ≤ ds) :
    (luminance_to_alpha_and_density l2 ba abd ds).1
        ≤ (luminance_to_alpha_and_density l1 ba abd ds).1 ∧
      (luminance_to_alpha_and_density l2 ba abd ds).2
        ≤ (luminance_to_alpha_and_density l1 ba abd ds).2 := by
  have hfac : (1 - l2 / 255) ≤ (1 - l1 / 255) := by
    have : l1 / 255 ≤ l2 / 255 := by
      apply div_le_div_of_nonneg_right h12 <;> norm_num
    linarith
  constructor
  · rw [luminance_to_alpha_and_density_alpha, luminance_to_alpha_and_density_alpha]
    have hinner : (ba : ℚ) + (1 - l2 / 255) * (abd : ℚ)
        ≤ (ba : ℚ) + (1 - l1 / 255) * (abd : ℚ) := by
      have := mul_le_mul_of_nonneg_right hfac
        (by exact_mod_cast habd : (0:ℚ) ≤ (abd : ℚ))
      linarith
    exact max_le_max le_rfl (min_le_min le_rfl (pyInt_mono hinner))
  · rw [luminance_to_alpha_and_density_density, luminance_to_alpha_and_density_density]
    exact mul_le_mul_of_nonneg_right hfac hds

/-- C5 witness: instantiated at `l1 = 0 ≤ l2 = 255` with the first static
layer's parameters. -/
theorem alpha_density_antitone_witness :
    (luminance_to_alpha_and_density 255 10 180 (7/10)).1
        ≤ (luminance_to_alpha_and_density 0 10 180 (7/10)).1 ∧
      (luminance_to_alpha_and_density 255 10 180 (7/10)).2
        ≤ (luminance_to_alpha_and_density 0 10 180 (7/10)).2 :=
  alpha_density_antitone 0 255 10 180 (7/10) (by norm_num) (by norm_num)
    (by norm_num) (by norm_num) (by norm_num) (by norm_num)

/-! ### C7: the resolved font size truncates, it does not round -/

/-- C7 counterexample: for base size 10 and size-variation factor `1.07`
(a value of `uniform(0.9, 1.2)`, reached at stream value `17/30`), the code
resolves `max(6, int(10.7)) = 10`, while the claimed
`max(6, round(10.7)) = 11`. -/
theorem fsize_round_counterexample :
    ((9:ℚ)/10 ≤ 107/100 ∧ (107:ℚ)/100 ≤ 12/10 ∧
      9/10 + (12/10 - 9/10) * (17/30 : ℚ) = 107/100) ∧
    resolveFsize 10 (107/100) ≠ max 6 (round ((10 : ℚ) * (107/100))) := by
  refine ⟨⟨by norm_num, by norm_num, by norm_num⟩, ?_⟩
  have h1 : resolveFsize 10 (107/100) = 10 := by
    norm_num [resolveFsize, pyInt]
  have h2 : round ((10 : ℚ) * (107/100)) = 11 := by
    rw [round_eq]; norm_num
  rw [h1, h2]; norm_num

/-- C7 (amended): for non-negative base size and factor, the resolved glyph
font size equals `max(6, trunc(font_size * factor))`, truncation toward zero
(the floor, as the product is non-negative) rather than rounding to
nearest. -/
theorem fsize_trunc (fs : ℤ) (f : ℚ) (hfs : 0 ≤ fs) (hf : 0 ≤ f) :
    resolveFsize fs f = max 6 ⌊(fs : ℚ) * f⌋ := by
  unfold resolveFsize
  rw [pyInt_eq_floor (mul_nonneg (by exact_mod_cast hfs) hf)]

/-- C7 witness: `resolveFsize 10 1.07 = max 6 ⌊10.7⌋`. -/
theorem fsize_trunc_witness : resolveFsize 10 (107/100) = max 6 ⌊(10 : ℚ) * (107/100)⌋ :=
  fsize_trunc 10 (107/100) (by norm_num) (by norm_num)

/-! ### C4: the luminance sampler computes the clipped-cell mean -/

/-- The grid cell `(x, y, step)` clipped to the image bounds, as the set of
pixel coordinates it covers. -/
def cellRegion (img : GrayImage) (x y step : ℕ) : Finset (ℕ × ℕ) :=
  Finset.Ico x (min (x + step) img.width) ×ˢ Finset.Ico y (min (y + step) img.height)

theorem list_range_map_sum {M : Type} [AddCommMonoid M] (n : ℕ) (f : ℕ → M) :
    ((List.range n).map f).sum = ∑ i ∈ Finset.range n, f i := by
  induction n with
  | zero => simp
  | succ k ih =>
    rw [List.range_succ, List.map_append, List.sum_append, Finset.sum_range_succ, ih]
    simp

theorem cropData_sum (img : GrayImage) (x y x2 y2 : ℕ) :
    (cropData img x y x2 y2).sum
      = ∑ j ∈ Finset.range (y2 - y), ∑ i ∈ Finset.range (x2 - x),
          img.pixel (x + i) (y + j) := by
  unfold cropData
  induction (y2 - y) with
  | zero => simp
  | succ k ih =>
    rw [List.range_succ, List.flatMap_append, List.sum_append, Finset.sum_range_succ, ih]
    simp [list_range_map_sum]

theorem cropData_length (img : GrayImage) (x y x2 y2 : ℕ) :
    (cropData img x y x2 y2).length = (x2 - x) * (y2 - y) := by
  unfold cropData
  induction (y2 - y) with
  | zero => simp
  | succ k ih =>
    rw [List.range_succ, List.flatMap_append, List.length_append, ih]
    simp [Nat.mul_succ]

theorem cellRegion_sum (img : GrayImage) (x y step : ℕ) :
    ∑ p ∈ cellRegion img x y step, img.pixel p.1 p.2
      = ∑ j ∈ Finset.range (min (y + step) img.height - y),
          ∑ i ∈ Finset.range (min (x + step) img.width - x),
            img.pixel (x + i) (y + j) := by
  unfold cellRegion
  rw [Finset.sum_product]
  simp only [Finset.sum_Ico_eq_sum_range]
  exact Finset.sum_comm

theorem cellRegion_card (img : GrayImage) (x y step : ℕ) :
    (cellRegion img x y step).card
      = (min (x + step) img.width - x) * (min (y + step) img.height - y) := by
  unfold cellRegion
  rw [Finset.card_product, Nat.card_Ico, Nat.card_Ico]

/-- C4: `sample_region_luminance` returns 255 on an empty clipped region, the
arithmetic mean over the clipped region otherwise; in particular it returns
exactly `v` on an in-bounds cell of an image whose (in-bounds) pixels are all
`v`. -/
theorem luminance_sampler_mean (img : GrayImage) (x y step v : ℕ) :
    (cellRegion img x y step = ∅ → sample_region_luminance img x y step = 255) ∧
    (cellRegion img x y step ≠ ∅ →
      sample_region_luminance img x y step
        = (∑ p ∈ cellRegion img x y step, (img.pixel p.1 p.2 : ℚ))
            / (cellRegion img x y step).card) ∧
    ((∀ i j, i < img.width → j < img.height → img.pixel i j = v) →
      x < img.width → y < img.height → 1 ≤ step →
      sample_region_luminance img x y step = (v : ℚ)) := by
  have hlen := cropData_length img x y (min (x + step) img.width) (min (y + step) img.height)
  have hcard := cellRegion_card img x y step
  have hempty : cropData img x y (min (x + step) img.width) (min (y + step) img.height) = []
      ↔ cellRegion img x y step = ∅ := by
    rw [← List.length_eq_zero, hlen, ← Finset.card_eq_zero, hcard, Nat.mul_comm]
  have hsum : (cropData img x y (min (x + step) img.width) (min (y + step) img.height)).sum
      = ∑ p ∈ cellRegion img x y step, img.pixel p.1 p.2 := by
    rw [cropData_sum, cellRegion_sum]
  refine ⟨?_, ?_, ?_⟩
  · intro h
    unfold sample_region_luminance
    rw [if_pos (hempty.mpr h)]
  · intro h
    unfold sample_region_luminance
    rw [if_neg (fun hc => h (hempty.mp hc))]
    rw [hsum, hlen, ← hcard]
    push_cast
    rfl
  · intro hv hx hy hstep
    have h1 : x < min (x + step) img.width := lt_min (by omega) hx
    have h2 : y < min (y + step) img.height := lt_min (by omega) hy
    have hposcard : (cellRegion img x y step).card ≠ 0 := by
      rw [hcard]; exact Nat.mul_ne_zero (by omega) (by omega)
    have hne : cellRegion img x y step ≠ ∅ := by
      intro hc; exact hposcard (by rw [hc, Finset.card_empty])
    unfold sample_region_luminance
    rw [if_neg (fun hc => hne (hempty.mp hc))]
    rw [hsum, hlen, ← hcard]
    have hconst : ∑ p ∈ cellRegion img x y step, img.pixel p.1 p.2
        = (cellRegion img x y step).card * v := by
      rw [Finset.sum_congr rfl
        (fun p hp => ?_), Finset.sum_const, smul_eq_mul]
      unfold cellRegion at hp
      rw [Finset.mem_product, Finset.mem_Ico, Finset.mem_Ico] at hp
      exact hv p.1 p.2 (lt_of_lt_of_le hp.1.2 (min_le_right _ _))
        (lt_of_lt_of_le hp.2.2 (min_le_right _ _))
    rw [hconst]
    have hcardne : ((cellRegion img x y step).card : ℚ) ≠ 0 := by
      exact_mod_cast hposcard
    push_cast
    field_simp

/-- C4 witness: a uniform 2×2 image of value 7 sampled over the in-bounds
cell `(0, 0, 2)` yields exactly 7. -/
theorem luminance_sampler_mean_witness :
    sample_region_luminance ⟨2, 2, fun _ _ => 7⟩ 0 0 2 = (7 : ℚ) :=
  (luminance_sampler_mean ⟨2, 2, fun _ _ => 7⟩ 0 0 2 7).2.2
    (fun _ _ _ _ => rfl) (by norm_num) (by norm_num) (by norm_num)

/-! ### Characterization of `processCell` -/

/-- The target that `processCell` emits when the stochastic thinning draw
does not skip the cell: word chosen by the second stream value, jitter by the
third and fourth, size variation by the fifth. -/
def emittedTarget (env : Env) (img : GrayImage) (step : ℕ) (fs ba abd : ℤ)
    (ds : ℚ) (col : ℤ × ℤ × ℤ) (w : String) (ws : List String) (x y : ℕ)
    (r : Rng) : Target :=
  let word := (w :: ws).getD (pyInt (r.stream (r.pos + 1) * ((w :: ws).length : ℚ))).toNat w
  let sv := 9/10 + (12/10 - 9/10) * r.stream (r.pos + 4)
  let fsize := resolveFsize fs sv
  let bbox := env.getbbox fsize word
  { word := word
    fontSize := fsize
    width := bbox.x1 - bbox.x0
    height := bbox.y1 - bbox.y0
    targetPos :=
      ((x : ℚ) + (step : ℚ) / 2 + (r.stream (r.pos + 2) - 1/2) * 2 * (step : ℚ) * (4/10),
       (y : ℚ) + (step : ℚ) / 2 + (r.stream (r.pos + 3) - 1/2) * 2 * (step : ℚ) * (4/10))
    alpha := (luminance_to_alpha_and_density (sample_region_luminance img x y step)
        ba abd ds).1
    color := col }

theorem processCell_skip (env : Env) (img : GrayImage) (step : ℕ)
    (fs ba abd : ℤ) (ds : ℚ) (col : ℤ × ℤ × ℤ) (words : List String)
    (x y : ℕ) (r : Rng)
    (h : r.stream r.pos
      > (luminance_to_alpha_and_density (sample_region_luminance img x y step) ba abd ds).2) :
    processCell env img step fs ba abd ds col words x y r
      = .ok (none, ⟨r.stream, r.pos + 1⟩) := by
  simp only [processCell, Rng.next]
  rw [if_pos h]

theorem processCell_emit (env : Env) (img : GrayImage) (step : ℕ)
    (fs ba abd : ℤ) (ds : ℚ) (col : ℤ × ℤ × ℤ) (w : String) (ws : List String)
    (x y : ℕ) (r : Rng)
    (h : ¬ r.stream r.pos
      > (luminance_to_alpha_and_density (sample_region_luminance img x y step) ba abd ds).2) :
    processCell env img step fs ba abd ds col (w :: ws) x y r
      = .ok (some (emittedTarget env img step fs ba abd ds col w ws x y r),
             ⟨r.stream, r.pos + 5⟩) := by
  simp only [processCell, Rng.next, Rng.uniform, choose_word]
  rw [if_neg h]
  rfl

theorem processCell_empty_words (env : Env) (img : GrayImage) (step : ℕ)
    (fs ba abd : ℤ) (ds : ℚ) (col : ℤ × ℤ × ℤ) (x y : ℕ) (r : Rng) :
    processCell env img step fs ba abd ds col [] x y r
      = if r.stream r.pos
          > (luminance_to_alpha_and_density (sample_region_luminance img x y step) ba abd ds).2
        then .ok (none, ⟨r.stream, r.pos + 1⟩)
        else .error .indexError := by
  simp only [processCell, Rng.next, choose_word]

theorem processCell_isOk (env : Env) (img : GrayImage) (step : ℕ)
    (fs ba abd : ℤ) (ds : ℚ) (col : ℤ × ℤ × ℤ) (w : String) (ws : List String)
    (x y : ℕ) (r : Rng) :
    ∃ p, processCell env img step fs ba abd ds col (w :: ws) x y r = .ok p := by
  by_cases h : r.stream r.pos
      > (luminance_to_alpha_and_density (sample_region_luminance img x y step) ba abd ds).2
  · exact ⟨_, processCell_skip env img step fs ba abd ds col (w :: ws) x y r h⟩
  · exact ⟨_, processCell_emit env img step fs ba abd ds col w ws x y r h⟩

/-! ### C6: density at least 1 means the cell always emits a placement -/

/-- C6: when the computed density of a cell is ≥ 1 and the thinning draw
lies in `[0,1)`, `processCell` never skips: it emits a glyph placement. -/
theorem density_ge_one_always_places (env : Env) (img : GrayImage) (step : ℕ)
    (fs ba abd : ℤ) (ds : ℚ) (col : ℤ × ℤ × ℤ) (w : String) (ws : List String)
    (x y : ℕ) (r : Rng)
    (hdens : 1 ≤ (luminance_to_alpha_and_density (sample_region_luminance img x y step)
        ba abd ds).2)
    (hu : r.stream r.pos < 1) :
    processCell env img step fs ba abd ds col (w :: ws) x y r
      = .ok (some (emittedTarget env img step fs ba abd ds col w ws x y r),
             ⟨r.stream, r.pos + 5⟩) :=
  processCell_emit env img step fs ba abd ds col w ws x y r
    (not_lt.mpr ((lt_of_lt_of_le hu hdens).le))

/-- Concrete environment for witnesses: a trivial font oracle, a 1×1 black
image, a 1×1 white image, and the constant stream `1/2`. -/
def envW : Env := ⟨fun _ _ => ⟨0, 0, 0, 0⟩⟩

def imgBlack : GrayImage := ⟨1, 1, fun _ _ => 0⟩

def imgWhite : GrayImage := ⟨1, 1, fun _ _ => 255⟩

def rngHalf : Rng := ⟨fun _ => 1/2, 0⟩

theorem sample_imgBlack : sample_region_luminance imgBlack 0 0 1 = 0 := by
  norm_num [sample_region_luminance, cropData, imgBlack,
    show List.range 1 = [0] from rfl]

theorem sample_imgWhite : sample_region_luminance imgWhite 0 0 50 = 255 := by
  norm_num [sample_region_luminance, cropData, imgWhite,
    show List.range 1 = [0] from rfl]

/-- C6 witness: on the all-black 1×1 image with `density_scale = 2` the
density is 2 ≥ 1 and the cell at `(0,0)` emits a placement. -/
theorem density_ge_one_always_places_witness :
    processCell envW imgBlack 1 12 10 180 2 (0, 0, 0) ["天"] 0 0 rngHalf
      = .ok (some (emittedTarget envW imgBlack 1 12 10 180 2 (0, 0, 0) "天" [] 0 0 rngHalf),
             ⟨rngHalf.stream, rngHalf.pos + 5⟩) :=
  density_ge_one_always_places envW imgBlack 1 12 10 180 2 (0, 0, 0) "天" [] 0 0 rngHalf
    (by rw [sample_imgBlack, luminance_to_alpha_and_density_density]; norm_num)
    (by norm_num [rngHalf])

/-! ### C9: empty vocabulary is not rejected up front -/

theorem except_map_ok {ε α β : Type} (f : α → β) (a : α) :
    (Except.ok a : Except ε α).map f = .ok (f a) := rfl

theorem except_map_error {ε α β : Type} (f : α → β) (e : ε) :
    (Except.error e : Except ε α).map f = .error e := rfl

theorem except_bind_ok {ε α β : Type} (a : α) (k : α → Except ε β) :
    (Except.ok a : Except ε α) >>= k = k a := rfl

theorem except_bind_error {ε α β : Type} (e : ε) (k : α → Except ε β) :
    (Except.error e : Except ε α) >>= k = .error e := rfl

theorem foldCells_empty_words (env : Env) (img : GrayImage) (step : ℕ)
    (fs ba abd : ℤ) (ds : ℚ) (col : ℤ × ℤ × ℤ) :
    ∀ (cells : List (ℕ × ℕ)) (ts : List Target) (r : Rng),
      (∃ r', cells.foldlM
          (fun (acc : List Target × Rng) (c : ℕ × ℕ) =>
            (processCell env img step fs ba abd ds col [] c.1 c.2 acc.2).map
              fun p => (acc.1 ++ p.1.toList, p.2)) (ts, r) = .ok (ts, r')) ∨
      cells.foldlM
          (fun (acc : List Target × Rng) (c : ℕ × ℕ) =>
            (processCell env img step fs ba abd ds col [] c.1 c.2 acc.2).map
              fun p => (acc.1 ++ p.1.toList, p.2)) (ts, r) = .error .indexError := by
  intro cells
  induction cells with
  | nil => intro ts r; exact Or.inl ⟨r, rfl⟩
  | cons c cs ih =>
    intro ts r
    rw [List.foldlM_cons, processCell_empty_words]
    by_cases h : r.stream r.pos
        > (luminance_to_alpha_and_density (sample_region_luminance img c.1 c.2 step)
            ba abd ds).2
    · rw [if_pos h, except_map_ok, except_bind_ok]
      have : ts ++ (none : Option Target).toList = ts := List.append_nil ts
      rw [this]
      exact ih ts ⟨r.stream, r.pos + 1⟩
    · rw [if_neg h, except_map_error, except_bind_error]
      exact Or.inr rfl

/-- C9 counterexample: a planner run with an empty vocabulary on a 1×1 white
image completes successfully (no error of any kind is raised): the luminance
of the single cell is sampled, the cell is thinned away, and an empty
placement list is returned.  This refutes the claim that an empty vocabulary
causes a fatal configuration error before any rendering work. -/
theorem empty_vocab_ok_counterexample :
    generate_layer_targets envW imgWhite
        { font_size := 50, step := 50, base_alpha := 10, alpha_boost_dark := 180,
          density_scale := 7/10, color := (0, 0, 0) } [] 1 rngHalf
      = .ok ([], ⟨rngHalf.stream, 1⟩) := by
  have h2 : processCell envW imgWhite 50 50 10 180 (7/10 * 1) (0, 0, 0) [] 0 0 rngHalf
      = .ok (none, ⟨rngHalf.stream, 1⟩) := by
    simp only [processCell, sample_imgWhite, luminance_to_alpha_and_density]
    norm_num [Rng.next, rngHalf]
  have h1 : layerCells imgWhite 50 = [(0, 0)] := by decide
  simp only [generate_layer_targets, h1]
  simp only [List.foldlM, h2, except_map_ok, except_bind_ok]
  rfl

/-- C9 (amended): the code performs no up-front vocabulary validation.  With
an empty vocabulary a planner run either completes successfully with an empty
placement list (every cell thinned away — luminance sampling and thinning
still happen), or raises `IndexError` from `random.choice` at the first cell
that passes the thinning step.  It never reports a configuration error before
rendering work begins. -/
theorem empty_vocab_no_upfront_error (env : Env) (img : GrayImage)
    (layer : LayerConfig) (dm : ℚ) (r : Rng) :
    (∃ r', generate_layer_targets env img layer [] dm r = .ok ([], r')) ∨
    generate_layer_targets env img layer [] dm r = .error .indexError := by
  have h := foldCells_empty_words env img layer.step layer.font_size layer.base_alpha
    layer.alpha_boost_dark (layer.density_scale * dm) layer.color
    (layerCells img layer.step) [] r
  simpa only [generate_layer_targets] using h

/-! ### C10: the animation planner's jitter is the fixed fraction 0.4 -/

theorem jitter_abs_bound (u s : ℚ) (h0u : 0 ≤ u) (h1u : u < 1) (hs : 0 ≤ s) :
    |(u - 1/2) * 2 * s * (4/10)| ≤ s * (4/10) := by
  have habs : |u - 1/2| ≤ 1/2 := abs_le.mpr ⟨by linarith, by linarith⟩
  have hre : (u - 1/2) * 2 * s * (4/10) = (u - 1/2) * (s * (4/5)) := by ring
  rw [hre, abs_mul, abs_of_nonneg (by positivity : (0:ℚ) ≤ s * (4/5))]
  calc |u - 1/2| * (s * (4/5)) ≤ 1/2 * (s * (4/5)) :=
        mul_le_mul_of_nonneg_right habs (by positivity)
    _ = s * (4/10) := by ring

/-- C10: the animation planner ignores the layer's `random_jitter` value
entirely (its result is invariant under changing that field), and the jitter
it applies to an emitted glyph's cell center is the hard-coded `±step · 0.4`:
whenever the stream values lie in `[0,1)`, the emitted target position
differs from the cell center `(x + step/2, y + step/2)` by at most
`step · 0.4` in each axis. -/
theorem animation_jitter_fixed :
    (∀ (env : Env) (img : GrayImage) (cfg : LayerConfig) (words : List String)
        (dm : ℚ) (r : Rng) (j : ℚ),
      generate_layer_targets env img { cfg with random_jitter := j } words dm r
        = generate_layer_targets env img cfg words dm r) ∧
    (∀ (env : Env) (img : GrayImage) (step : ℕ) (fs ba abd : ℤ) (ds : ℚ)
        (col : ℤ × ℤ × ℤ) (w : String) (ws : List String) (x y : ℕ) (r : Rng),
      (∀ n, 0 ≤ r.stream n ∧ r.stream n < 1) →
      ¬ r.stream r.pos
        > (luminance_to_alpha_and_density (sample_region_luminance img x y step)
            ba abd ds).2 →
      processCell env img step fs ba abd ds col (w :: ws) x y r
          = .ok (some (emittedTarget env img step fs ba abd ds col w ws x y r),
                 ⟨r.stream, r.pos + 5⟩) ∧
        |(emittedTarget env img step fs ba abd ds col w ws x y r).targetPos.1
            - ((x : ℚ) + (step : ℚ) / 2)| ≤ (step : ℚ) * (4/10) ∧
        |(emittedTarget env img step fs ba abd ds col w ws x y r).targetPos.2
            - ((y : ℚ) + (step : ℚ) / 2)| ≤ (step : ℚ) * (4/10)) := by
  constructor
  · intro env img cfg words dm r j
    rfl
  · intro env img step fs ba abd ds col w ws x y r hstream h
    refine ⟨processCell_emit env img step fs ba abd ds col w ws x y r h, ?_, ?_⟩
    · have he : (emittedTarget env img step fs ba abd ds col w ws x y r).targetPos.1
          - ((x : ℚ) + (step : ℚ) / 2)
          = (r.stream (r.pos + 2) - 1/2) * 2 * (step : ℚ) * (4/10) := by
        simp only [emittedTarget]; ring
      rw [he]
      exact jitter_abs_bound _ _ (hstream (r.pos + 2)).1 (hstream (r.pos + 2)).2
        (Nat.cast_nonneg step)
    · have he : (emittedTarget env img step fs ba abd ds col w ws x y r).targetPos.2
          - ((y : ℚ) + (step : ℚ) / 2)
          = (r.stream (r.pos + 3) - 1/2) * 2 * (step : ℚ) * (4/10) := by
        simp only [emittedTarget]; ring
      rw [he]
      exact jitter_abs_bound _ _ (hstream (r.pos + 3)).1 (hstream (r.pos + 3)).2
        (Nat.cast_nonneg step)

/-- C10 witness: concrete instance of both conjuncts on the 1×1 black image
with the constant stream `1/2`. -/
theorem animation_jitter_fixed_witness :
    (generate_layer_targets envW imgBlack
        { font_size := 10, step := 1, base_alpha := 10, alpha_boost_dark := 180,
          density_scale := 1, color := (0, 0, 0), random_jitter := 0 }
        ["天"] 1 rngHalf
      = generate_layer_targets envW imgBlack
          { font_size := 10, step := 1, base_alpha := 10, alpha_boost_dark := 180,
            density_scale := 1, color := (0, 0, 0) } ["天"] 1 rngHalf) ∧
    (processCell envW imgBlack 1 10 10 180 1 (0, 0, 0) ["天"] 0 0 rngHalf
        = .ok (some (emittedTarget envW imgBlack 1 10 10 180 1 (0, 0, 0) "天" [] 0 0 rngHalf),
               ⟨rngHalf.stream, rngHalf.pos + 5⟩) ∧
      |(emittedTarget envW imgBlack 1 10 10 180 1 (0, 0, 0) "天" [] 0 0 rngHalf).targetPos.1
          - ((0 : ℚ) + (1 : ℚ) / 2)| ≤ (1 : ℚ) * (4/10) ∧
      |(emittedTarget envW imgBlack 1 10 10 180 1 (0, 0, 0) "天" [] 0 0 rngHalf).targetPos.2
          - ((0 : ℚ) + (1 : ℚ) / 2)| ≤ (1 : ℚ) * (4/10)) := by
  constructor
  · exact animation_jitter_fixed.1 envW imgBlack
      { font_size := 10, step := 1, base_alpha := 10, alpha_boost_dark := 180,
        density_scale := 1, color := (0, 0, 0) } ["天"] 1 rngHalf 0
  · have h := animation_jitter_fixed.2 envW imgBlack 1 10 10 180 1 (0, 0, 0) "天" [] 0 0
      rngHalf (fun _ => ⟨by norm_num [rngHalf], by norm_num [rngHalf]⟩)
      (by rw [sample_imgBlack, luminance_to_alpha_and_density_density]
          norm_num [rngHalf])
    simpa only [Nat.cast_zero, Nat.cast_one] using h

/-! ### C3: flight interpolation and its boundary -/

/-- C3: the interpolated center drawn on flight frame `f` is
`start + (target − start) · (f+1)/frames_per_layer`, per axis; on the last
flight frame (`f = frames_per_layer − 1`) the progress is exactly 1 and the
interpolated center equals the target exactly. -/
theorem interp_boundary (s t : ℚ × ℚ) (f fpl : ℕ) (h : 1 ≤ fpl) :
    interpPos s t (tNorm f fpl)
        = (s.1 + (t.1 - s.1) * (((f : ℚ) + 1) / (fpl : ℚ)),
           s.2 + (t.2 - s.2) * (((f : ℚ) + 1) / (fpl : ℚ))) ∧
      tNorm (fpl - 1) fpl = 1 ∧
      interpPos s t (tNorm (fpl - 1) fpl) = t := by
  have hfpl : ((fpl : ℚ)) ≠ 0 := by
    have : (0:ℚ) < (fpl : ℚ) := by exact_mod_cast Nat.lt_of_lt_of_le Nat.zero_lt_one h
    exact ne_of_gt this
  have h1 : tNorm (fpl - 1) fpl = 1 := by
    unfold tNorm
    have hc : ((fpl - 1 : ℕ) : ℚ) = (fpl : ℚ) - 1 := by
      rw [Nat.cast_sub h]; norm_num
    rw [hc]
    field_simp
  refine ⟨rfl, h1, ?_⟩
  rw [h1]
  unfold interpPos
  rw [Prod.ext_iff]
  constructor <;> simp <;> ring

/-- C3 witness: with `frames_per_layer = 2`, start `(1,2)` and target `(3,4)`,
the last flight frame has progress 1 and lands exactly on the target. -/
theorem interp_boundary_witness :
    (1 ≤ 2) ∧ (tNorm (2 - 1) 2 = 1 ∧ interpPos (1, 2) (3, 4) (tNorm (2 - 1) 2) = (3, 4)) :=
  ⟨by norm_num, (interp_boundary (1, 2) (3, 4) 0 2 (by norm_num)).2⟩

/-! ### C8: flight frames are copies; the settled canvas mutates only at commit -/

theorem flightFold_spec (glyphs : List Glyph) (fpl : ℕ) :
    ∀ (l : List ℕ) (st : Canvas × List Canvas),
      ((l.foldl (fun s f => (s.1, s.2 ++ [flightFrame s.1 glyphs f fpl])) st)).1 = st.1 ∧
      ((l.foldl (fun s f => (s.1, s.2 ++ [flightFrame s.1 glyphs f fpl])) st)).2
        = st.2 ++ l.map (fun f => flightFrame st.1 glyphs f fpl) := by
  intro l
  induction l with
  | nil => intro st; exact ⟨rfl, by simp⟩
  | cons a as ih =>
    intro st
    rw [List.foldl_cons]
    refine ⟨(ih _).1, ?_⟩
    rw [(ih _).2]
    simp

theorem flightLoop_fst (glyphs : List Glyph) (fpl : ℕ) (st : Canvas × List Canvas) :
    (flightLoop glyphs fpl st).1 = st.1 :=
  (flightFold_spec glyphs fpl (List.range fpl) st).1

theorem flightLoop_snd (glyphs : List Glyph) (fpl : ℕ) (st : Canvas × List Canvas) :
    (flightLoop glyphs fpl st).2
      = st.2 ++ (List.range fpl).map (fun f => flightFrame st.1 glyphs f fpl) :=
  (flightFold_spec glyphs fpl (List.range fpl) st).2

theorem processLayer_snd (glyphs : List Glyph) (fpl : ℕ) (st : Canvas × List Canvas) :
    (processLayer glyphs fpl st).2
      = st.2 ++ (List.range fpl).map (fun f => flightFrame st.1 glyphs f fpl) :=
  flightLoop_snd glyphs fpl st

theorem processLayer_fst (glyphs : List Glyph) (fpl : ℕ) (st : Canvas × List Canvas) :
    (processLayer glyphs fpl st).1 = commitLayer st.1 glyphs := by
  simp only [processLayer]
  rw [flightLoop_fst]

/-- C8: during a layer's flight the settled canvas is never modified (the
loop state's settled component is unchanged across all flight iterations);
every emitted frame is built from a copy of the settled canvas as it stood at
the start of the layer's flight; and the settled canvas is mutated exactly
once, at the commit point, where the layer's glyphs are drawn at their final
target positions. -/
theorem settled_canvas_isolation (glyphs : List Glyph) (fpl : ℕ)
    (st : Canvas × List Canvas) :
    (flightLoop glyphs fpl st).1 = st.1 ∧
    (processLayer glyphs fpl st).2
        = st.2 ++ (List.range fpl).map (fun f => flightFrame st.1 glyphs f fpl) ∧
    (processLayer glyphs fpl st).1 = commitLayer st.1 glyphs :=
  ⟨flightLoop_fst glyphs fpl st, processLayer_snd glyphs fpl st,
   processLayer_fst glyphs fpl st⟩

/-! ### C2: total frame count -/

theorem foldCells_isOk (env : Env) (img : GrayImage) (step : ℕ)
    (fs ba abd : ℤ) (ds : ℚ) (col : ℤ × ℤ × ℤ) (w : String) (ws : List String) :
    ∀ (cells : List (ℕ × ℕ)) (acc : List Target × Rng),
      ∃ p, cells.foldlM
          (fun (acc : List Target × Rng) (c : ℕ × ℕ) =>
            (processCell env img step fs ba abd ds col (w :: ws) c.1 c.2 acc.2).map
              fun p => (acc.1 ++ p.1.toList, p.2)) acc = .ok p := by
  intro cells
  induction cells with
  | nil => intro acc; exact ⟨acc, rfl⟩
  | cons c cs ih =>
    intro acc
    rw [List.foldlM_cons]
    obtain ⟨q, hq⟩ := processCell_isOk env img step fs ba abd ds col w ws c.1 c.2 acc.2
    rw [hq, except_map_ok, except_bind_ok]
    exact ih _

theorem generate_layer_targets_isOk (env : Env) (img : GrayImage)
    (layer : LayerConfig) (w : String) (ws : List String) (dm : ℚ) (r : Rng) :
    ∃ p, generate_layer_targets env img layer (w :: ws) dm r = .ok p := by
  simpa only [generate_layer_targets] using
    foldCells_isOk env img layer.step layer.font_size layer.base_alpha
      layer.alpha_boost_dark (layer.density_scale * dm) layer.color w ws
      (layerCells img layer.step) ([], r)

theorem animStepLayer_frames (env : Env) (img : GrayImage) (w : String)
    (ws : List String) (fpl : ℕ) (st : AnimState) (layer : LayerConfig) :
    ∃ st', animStepLayer env img (w :: ws) fpl st layer = .ok st' ∧
      st'.frames.length = st.frames.length + fpl := by
  obtain ⟨⟨ts, r⟩, hok⟩ := generate_layer_targets_isOk env img layer w ws 1 st.rng
  refine ⟨_, by unfold animStepLayer; rw [hok], ?_⟩
  show (processLayer (assignStarts (img.width : ℚ) (img.height : ℚ) ts r).1 fpl
      (st.settled, st.frames)).2.length = st.frames.length + fpl
  rw [processLayer_snd]
  simp

theorem foldLayers_frames (env : Env) (img : GrayImage) (w : String)
    (ws : List String) (fpl : ℕ) :
    ∀ (layers : List LayerConfig) (st : AnimState),
      ∃ st', layers.foldlM (animStepLayer env img (w :: ws) fpl) st = .ok st' ∧
        st'.frames.length = st.frames.length + fpl * layers.length := by
  intro layers
  induction layers with
  | nil => intro st; exact ⟨st, rfl, by simp⟩
  | cons layer ls ih =>
    intro st
    rw [List.foldlM_cons]
    obtain ⟨st1, h1, hl1⟩ := animStepLayer_frames env img w ws fpl st layer
    rw [h1, except_bind_ok]
    obtain ⟨st2, h2, hl2⟩ := ih st1
    refine ⟨st2, h2, ?_⟩
    rw [hl2, hl1, List.length_cons]
    ring

/-- C2: for any non-empty vocabulary, the animation run succeeds and its
frame sequence holds exactly
`frames_per_layer × (number of combined layers) + final_original_frames`
frames (the combined layer list being `subtle_soft ++ graphic_bold`). -/
theorem frame_count_invariant (env : Env) (img : GrayImage) (original : Canvas)
    (w : String) (ws : List String) (r : Rng) (fpl ffr : ℕ) :
    (accumulate_layers_animation env img original (w :: ws) r fpl ffr).map List.length
      = .ok (fpl * combined_layers.length + ffr) := by
  obtain ⟨st', hfold, hlen⟩ := foldLayers_frames env img w ws fpl combined_layers
    ⟨Canvas.blank img.width img.height (255, 255, 255), [], r⟩
  simp only [accumulate_layers_animation]
  rw [hfold]
  dsimp only
  rw [except_map_ok]
  simp only [List.length_append, List.length_map, List.length_range]
  rw [hlen]
  simp

end Wordless
